import Mathlib

/-!
Shallow embedding of the vasha-website frontend logic that the claims
concern: the simulated progress tickers of `Chat.tsx` and `MT.tsx`, the
MT page state transitions, the chat send handler, the `chatService`
fetch wrappers, and the Hero evaluation-plot lightbox.
-/

namespace Vasha

/-! ## Simulated progress ticker

Both `MT.tsx` (`handleTranslate`, lines 31-38) and `Chat.tsx`
(`handleSend`, lines 150-161) drive a `setInterval` ticker over the
progress state (a `number | null` React state).  The callback is
`(p) => { if (p === null) return 1; const next = p + inc; return next >= 90 ? 90 : next }`
where `inc` is a pseudo-random bounded increment:
`Math.floor(Math.random() * 8) + 3` (MT, so 3..10) or
`Math.floor(Math.random() * 6) + 2` (ASR in Chat, so 2..7).
We model the randomness as an arbitrary list of increments constrained
by those bounds in the theorems. -/

/-- Value-level body of the interval callback: `next = p + inc; next >= 90 ? 90 : next`. -/
def tickVal (inc p : Nat) : Nat :=
  if p + inc ≥ 90 then 90 else p + inc

/-- The interval callback on the `number | null` progress state
(`null` is `none`): `p === null` yields `1`, otherwise `tickVal`. -/
def progressTick (inc : Nat) : Option Nat → Option Nat
  | none => some 1
  | some p => some (tickVal inc p)

/-- Successive values of the progress state from initial value `p`
under a list of tick increments (the initial value is included, since
`setMtProgress(0)` / `setAsrProgress(0)` is itself an emission). -/
def tickTrace (p : Nat) (incs : List Nat) : List Nat :=
  List.scanl (fun a i => tickVal i a) p incs

/-- The tick-driven emissions of one operation: the handler first sets
the progress to 0, then each interval tick updates it. -/
def tickValues (incs : List Nat) : List Nat :=
  tickTrace 0 incs

/-- Emitted progress values of one MT translate operation
(`MT.tsx` `handleTranslate`): 0, the ticks, then the terminal
`setMtProgress(100)` in the `finally` block, after which the interval
is cleared, so no tick follows the 100. -/
def mtOpValues (incs : List Nat) : List Nat :=
  tickValues incs ++ [100]

/-- Emitted progress values of one successful ASR operation
(`Chat.tsx` `handleSend`): 0, the ticks, then `setAsrProgress(100)` in
the `finally` block. -/
def asrOpValuesSuccess (incs : List Nat) : List Nat :=
  tickValues incs ++ [100]

/-- Emitted progress values of one failed ASR operation: the `catch`
block sets 100 and then the `finally` block sets 100 again, so the
raw assignment sequence ends with two 100 entries. -/
def asrOpValuesError (incs : List Nat) : List Nat :=
  tickValues incs ++ [100, 100]

/-- Full MT progress state event list including the delayed
`setMtProgress(null)` reset that follows the terminal 100. -/
def mtOpEvents (incs : List Nat) : List (Option Nat) :=
  (mtOpValues incs).map some ++ [none]

/-- Increment range of the MT ticker: `Math.floor(Math.random()*8)+3`. -/
def mtIncRange (i : Nat) : Prop := 3 ≤ i ∧ i ≤ 10

/-- Increment range of the ASR ticker: `Math.floor(Math.random()*6)+2`. -/
def asrIncRange (i : Nat) : Prop := 2 ≤ i ∧ i ≤ 7

/-- Collapse runs of equal consecutive values.  React's `useState`
bails out of an update whose value is `Object.is`-equal to the current
state, so an observer of the rendered progress sees the assignment
sequence with consecutive duplicates collapsed. -/
def collapseRuns : List Nat → List Nat
  | [] => []
  | [a] => [a]
  | a :: b :: rest =>
    if a = b then collapseRuns (b :: rest) else a :: collapseRuns (b :: rest)

/-! ## JavaScript value helpers -/

/-- JS `x || null` on a nullable string: `null`, `undefined` and the
empty string are falsy, so they all map to `null`. -/
def jsOrNull : Option String → Option String
  | some "" => none
  | x => x

/-- JS `m || fallback` on a nullable string. -/
def jsMessageOr (m : Option String) (fallback : String) : String :=
  match m with
  | none => fallback
  | some "" => fallback
  | some s => s

/-- JS truthiness of a `string | null` value. -/
def jsTruthyStr : Option String → Bool
  | none => false
  | some "" => false
  | some _ => true

/-! ## MT page (`MT.tsx`)

The page reads `location.state` (transcription, language, audioUrl,
each normalized with `|| null`), keeps React state for the language
selectors, model choice, loading flag, result, error and progress, and
`handleTranslate` drives one translate call. -/

/-- Model choice of the MT page: `'google' | 'indictrans' | 'nllb'`. -/
inductive MTModel
  | google
  | indictrans
  | nllb
deriving DecidableEq

/-- The `location.state` record passed to the MT route. -/
structure MTLocationState where
  transcription : Option String
  language : Option String
  audioUrl : Option String

/-- React state of the MT page relevant to the claims. -/
structure MTPageState where
  transcription : Option String
  language : Option String
  audioUrl : Option String
  srcLang : String
  tgtLang : String
  model : MTModel
  loading : Bool
  result : Option String
  error : Option String
  mtProgress : Option Nat

/-- Initialization of the MT page from `location.state` (`MT.tsx`
lines 14-25): each field is normalized with `|| null`, `srcLang` is
`useState(language || "en")`, `tgtLang` starts at `"hi"`, the model at
`'indictrans'`, and everything else empty/idle. -/
def initMT (loc : MTLocationState) : MTPageState :=
  { transcription := jsOrNull loc.transcription
    language := jsOrNull loc.language
    audioUrl := jsOrNull loc.audioUrl
    srcLang := (jsOrNull loc.language).getD "en"
    tgtLang := "hi"
    model := MTModel.indictrans
    loading := false
    result := none
    error := none
    mtProgress := none }

/-- Arguments of the `mtService.translate` call. -/
structure MTRequest where
  text : String
  src : String
  tgt : String
  model : MTModel
deriving DecidableEq

/-- The translate request issued by `handleTranslate`, or `none` when
the guard `if (!transcription) return` fires. -/
def mtRequestOf (s : MTPageState) : Option MTRequest :=
  match s.transcription with
  | none => none
  | some t => some { text := t, src := s.srcLang, tgt := s.tgtLang, model := s.model }

/-- Outcome of the awaited `mtService.translate` call: the resolved
translation, or the thrown error's optional `message`. -/
inductive TranslateOutcome
  | success (translation : String)
  | failure (message : Option String)

/-- Settled MT page state after `handleTranslate` runs to completion
for a given outcome (`MT.tsx` lines 27-64): without a transcription the
handler returns immediately; on success the result is stored and the
error stays cleared; on failure only the error message is stored
(`e?.message || 'Translation failed'`); in both completed cases the
`finally` block ends with loading false and progress reset. -/
def handleTranslate (s : MTPageState) (out : TranslateOutcome) : MTPageState :=
  match s.transcription with
  | none => s
  | some _ =>
    match out with
    | TranslateOutcome.success t =>
      { s with result := some t, error := none, loading := false, mtProgress := none }
    | TranslateOutcome.failure m =>
      { s with error := some (jsMessageOr m "Translation failed"),
               loading := false, mtProgress := none }

/-- The `location.state` record sent by the Chat page's Continue button
(`Chat.tsx` line 525): the last transcription, the detected language
and the last recording URL. -/
def continueToMT (lastTranscription detectedLanguage lastRecordingUrl : Option String) :
    MTLocationState :=
  { transcription := lastTranscription
    language := detectedLanguage
    audioUrl := lastRecordingUrl }

/-- The `location.state` record sent to the TTS route. -/
structure TTSLocationState where
  text : String
  lang_code : String
  src_text : Option String
  src_lang : String
deriving DecidableEq

/-- Navigation payload of the Continue-to-TTS button (`MT.tsx` lines
150-158); the button is rendered only when a result is present. -/
def continueToTTS (s : MTPageState) : Option TTSLocationState :=
  match s.result with
  | none => none
  | some r =>
    some { text := r, lang_code := s.tgtLang, src_text := s.transcription, src_lang := s.srcLang }

/-! ## ASR response handling (`Chat.tsx`) -/

/-- The fields of `ASRResponse` consumed by `handleSend`. -/
structure ASRResponse where
  success : Bool
  transcription : String
  language : String
  language_name : String
  model_used : String
  error : Option String

/-- A toast notification. -/
structure ToastMsg where
  title : String
  description : String

/-- The toast raised on a successful ASR response (`Chat.tsx` lines
209-212), whose description is the template literal
`Detected: X | Model: Y` built from the response fields. -/
def asrSuccessToast (r : ASRResponse) : ToastMsg :=
  { title := "Transcription completed"
    description := "Detected: " ++ r.language_name ++ " | Model: " ++ r.model_used }

/-- The ASR branch of `handleSend` after the response arrives
(`Chat.tsx` lines 198-215): on success it records the transcription
and the detected language and raises the toast; otherwise it throws
`asrResponse.error || "ASR processing failed"`. -/
def handleASRResponse (r : ASRResponse) : Except String (String × String × ToastMsg) :=
  if r.success then
    Except.ok (r.transcription, r.language, asrSuccessToast r)
  else
    Except.error (jsMessageOr r.error "ASR processing failed")

/-! ## Chat send guard (`Chat.tsx` `handleSend`) -/

/-- Chat page state consulted by the entry of `handleSend`. -/
structure ChatSendState where
  input : String
  audioBlob : Bool
  audioFile : Bool
  mediaLink : Option String
  isLoading : Bool
  isProcessingASR : Bool
  backendAvailable : Bool
  asrProgress : Option Nat

/-- Whether any media input is present: `audioBlob || audioFile || mediaLink`. -/
def hasMediaInput (s : ChatSendState) : Bool :=
  s.audioBlob || s.audioFile || jsTruthyStr s.mediaLink

/-- The entry guard of `handleSend` (`Chat.tsx` line 133):
`(!input.trim() && !audioBlob && !audioFile && !mediaLink) || isLoading || isProcessingASR`. -/
def sendBlocked (s : ChatSendState) : Bool :=
  (s.input.trim == "" && !s.audioBlob && !s.audioFile && !jsTruthyStr s.mediaLink)
    || s.isLoading || s.isProcessingASR

/-- State after the synchronous prefix of `handleSend`, up to the point
where the asynchronous work starts: a blocked call returns the state
unchanged; a media call with the backend unavailable returns after a
toast without touching the state; a media call otherwise starts the ASR
operation (`setIsProcessingASR(true)`, `setAsrProgress(0)`); a
text-only call clears the input and sets `isLoading`. -/
def handleSendStart (s : ChatSendState) : ChatSendState :=
  if sendBlocked s then s
  else if hasMediaInput s then
    if s.backendAvailable then
      { s with isProcessingASR := true, asrProgress := some 0 }
    else s
  else { s with input := "", isLoading := true }

/-! ## chatService (`chatService.ts`) -/

/-- The parts of a `fetch` response the service consumes. -/
structure HttpResponse where
  ok : Bool
  status : Nat
  jsonBody : String
  textBody : String

/-- Headers attached from the stored token:
`token ? { Authorization: "Bearer " + token } : {}`; `getItem` yields
`null` for a missing key and the empty string is falsy. -/
def bearerHeaders : Option String → List (String × String)
  | none => []
  | some "" => []
  | some t => [("Authorization", "Bearer " ++ t)]

/-- Headers of the `saveChat` POST: `Content-Type` plus the spread of
the conditional bearer header. -/
def saveChatHeaders (token : Option String) : List (String × String) :=
  ("Content-Type", "application/json") :: bearerHeaders token

/-- Result of `chatService.getChats` for a given response: the parsed
JSON body on `res.ok`, otherwise a thrown
`Error("Failed to fetch chats: " + res.status)`. -/
def getChats (res : HttpResponse) : Except String String :=
  if res.ok then Except.ok res.jsonBody
  else Except.error ("Failed to fetch chats: " ++ toString res.status)

/-- Result of `chatService.saveChat` for a given response: the parsed
JSON body on `res.ok`, otherwise a thrown
`Error("Failed to save chat: " + res.status + " " + body)`. -/
def saveChat (res : HttpResponse) : Except String String :=
  if res.ok then Except.ok res.jsonBody
  else Except.error ("Failed to save chat: " ++ toString res.status ++ " " ++ res.textBody)

/-! ## Hero evaluation-plot lightbox (`Hero` component) -/

/-- Lightbox-related React state of the `Hero` component. -/
structure HeroState where
  evalImages : Option (List String)
  evalIndex : Nat
  zoomed : Bool

/-- Initial state: no lightbox open, index 0, not zoomed. -/
def heroInit : HeroState :=
  { evalImages := none, evalIndex := 0, zoomed := false }

/-- User events of the lightbox: the three Evaluation Plots buttons
(each opening a concrete image list with index 0), the previous/next
buttons (rendered only when more than one image is shown), closing, and
the zoom toggle. -/
inductive HeroEvent
  | openASREval
  | openMTEval
  | openTTSEval
  | prevImage
  | nextImage
  | closeLightbox
  | toggleZoom

/-- One step of the lightbox state.  The previous handler computes
`Math.max(0, i - 1)`, which over naturals is truncated subtraction;
the next handler computes `Math.min(evalImages.length - 1, i + 1)`.
Both handlers exist in the DOM only while `evalImages.length > 1`. -/
def heroStep (s : HeroState) (e : HeroEvent) : HeroState :=
  match e with
  | HeroEvent.openASREval =>
    { s with evalImages := some ["/asrcombined.png"], evalIndex := 0, zoomed := false }
  | HeroEvent.openMTEval =>
    { s with evalImages := some ["/mt_combined.png"], evalIndex := 0, zoomed := false }
  | HeroEvent.openTTSEval =>
    { s with evalImages := some ["/tts_mos.png", "/tts_rtf.png"], evalIndex := 0, zoomed := false }
  | HeroEvent.prevImage =>
    match s.evalImages with
    | some imgs =>
      if imgs.length > 1 then { s with evalIndex := s.evalIndex - 1 } else s
    | none => s
  | HeroEvent.nextImage =>
    match s.evalImages with
    | some imgs =>
      if imgs.length > 1 then { s with evalIndex := min (imgs.length - 1) (s.evalIndex + 1) }
      else s
    | none => s
  | HeroEvent.closeLightbox => { s with evalImages := none }
  | HeroEvent.toggleZoom => { s with zoomed := !s.zoomed }

/-- The lightbox index invariant: whenever images are shown, the index
is a valid position in the image list. -/
def heroIndexInBounds (s : HeroState) : Prop :=
  ∀ imgs, s.evalImages = some imgs → s.evalIndex < imgs.length

/-! ### Ticker lemmas -/

theorem tickVal_le_90 (inc p : Nat) : tickVal inc p ≤ 90 := by
  unfold tickVal
  split
  · exact le_refl 90
  · omega

theorem le_tickVal (inc : Nat) {p : Nat} (hp : p ≤ 90) : p ≤ tickVal inc p := by
  unfold tickVal
  split
  · exact hp
  · omega

theorem tickTrace_cons (p i : Nat) (incs : List Nat) :
    tickTrace p (i :: incs) = p :: tickTrace (tickVal i p) incs := by
  simp [tickTrace, List.scanl]

theorem tickTrace_nil (p : Nat) : tickTrace p [] = [p] := rfl

theorem tickTrace_ne_nil (p : Nat) (incs : List Nat) : tickTrace p incs ≠ [] := by
  cases incs with
  | nil => simp [tickTrace_nil]
  | cons i rest => simp [tickTrace_cons]

theorem head_tickTrace (p : Nat) (incs : List Nat) :
    (tickTrace p incs).head? = some p := by
  cases incs with
  | nil => simp [tickTrace_nil]
  | cons i rest => simp [tickTrace_cons]

theorem mem_tickTrace_le_90 (incs : List Nat) :
    ∀ p, p ≤ 90 → ∀ q ∈ tickTrace p incs, q ≤ 90 := by
  induction incs with
  | nil =>
    intro p hp q hq
    simp [tickTrace_nil] at hq
    omega
  | cons i rest ih =>
    intro p hp q hq
    rw [tickTrace_cons] at hq
    rcases List.mem_cons.mp hq with h | h
    · omega
    · exact ih (tickVal i p) (tickVal_le_90 i p) q h

theorem chain_le_tickTrace (incs : List Nat) :
    ∀ p, p ≤ 90 → List.Chain' (· ≤ ·) (tickTrace p incs) := by
  induction incs with
  | nil =>
    intro p _
    simp [tickTrace_nil]
  | cons i rest ih =>
    intro p hp
    rw [tickTrace_cons]
    refine List.chain'_cons'.mpr ⟨?_, ih (tickVal i p) (tickVal_le_90 i p)⟩
    intro y hy
    rw [head_tickTrace] at hy
    cases hy
    exact le_tickVal i hp

theorem tickVal_of_no_cap (i p : Nat) (h : p + i < 90) : tickVal i p = p + i := by
  unfold tickVal
  split
  · omega
  · rfl

/-- When every increment is at most 7 and the whole run cannot reach the
cap, the trace strictly increases and stays below the given budget. -/
theorem tickTrace_strict (incs : List Nat) :
    ∀ p, (∀ i ∈ incs, 2 ≤ i ∧ i ≤ 7) → p + 7 * incs.length ≤ 89 →
      List.Chain' (· < ·) (tickTrace p incs) ∧
      ∀ q ∈ tickTrace p incs, q ≤ p + 7 * incs.length := by
  induction incs with
  | nil =>
    intro p _ _
    constructor
    · simp [tickTrace_nil]
    · intro q hq
      simp [tickTrace_nil] at hq
      omega
  | cons i rest ih =>
    intro p hrange hbudget
    have hi : 2 ≤ i ∧ i ≤ 7 := hrange i (List.mem_cons_self i rest)
    have hlen : p + 7 * (i :: rest).length = p + 7 + 7 * rest.length := by
      simp [List.length_cons]
      ring
    have hcap : p + i < 90 := by
      rw [hlen] at hbudget
      omega
    have hstep : tickVal i p = p + i := tickVal_of_no_cap i p hcap
    have hrest : ∀ j ∈ rest, 2 ≤ j ∧ j ≤ 7 := fun j hj => hrange j (List.mem_cons_of_mem i hj)
    have hbudget' : (p + i) + 7 * rest.length ≤ 89 := by
      rw [hlen] at hbudget
      omega
    obtain ⟨hchain, hbound⟩ := ih (p + i) hrest hbudget'
    rw [tickTrace_cons, hstep]
    constructor
    · refine List.chain'_cons'.mpr ⟨?_, hchain⟩
      intro y hy
      rw [head_tickTrace] at hy
      cases hy
      omega
    · intro q hq
      rcases List.mem_cons.mp hq with h | h
      · omega
      · have := hbound q h
        omega

/-! ### Collapse lemmas -/

theorem collapseRuns_cons_cons (a b : Nat) (rest : List Nat) :
    collapseRuns (a :: b :: rest) =
      if a = b then collapseRuns (b :: rest) else a :: collapseRuns (b :: rest) := by
  rfl

theorem collapseRuns_eq_self : ∀ {l : List Nat}, List.Chain' (· ≠ ·) l → collapseRuns l = l
  | [], _ => rfl
  | [_], _ => rfl
  | a :: b :: rest, h => by
    have hab : a ≠ b := List.chain'_cons.mp h |>.1
    have htail : List.Chain' (· ≠ ·) (b :: rest) := List.chain'_cons.mp h |>.2
    rw [collapseRuns_cons_cons, if_neg hab, collapseRuns_eq_self htail]

/-- Collapsing is blind to an immediately repeated element. -/
theorem collapseRuns_append_dup (a : Nat) (ys : List Nat) :
    ∀ xs : List Nat, collapseRuns (xs ++ a :: a :: ys) = collapseRuns (xs ++ a :: ys)
  | [] => by
    simp only [List.nil_append]
    rw [collapseRuns_cons_cons, if_pos rfl]
  | [x] => by
    have hkey : collapseRuns (a :: a :: ys) = collapseRuns (a :: ys) := by
      rw [collapseRuns_cons_cons, if_pos rfl]
    show collapseRuns (x :: a :: a :: ys) = collapseRuns (x :: a :: ys)
    rw [collapseRuns_cons_cons x a (a :: ys), hkey, ← collapseRuns_cons_cons x a ys]
  | x :: y :: rest => by
    have h1 : (x :: y :: rest) ++ a :: a :: ys = x :: ((y :: rest) ++ a :: a :: ys) := rfl
    have h2 : (x :: y :: rest) ++ a :: ys = x :: ((y :: rest) ++ a :: ys) := rfl
    have hih := collapseRuns_append_dup a ys (y :: rest)
    rw [h1, h2]
    have hy1 : (y :: rest) ++ a :: a :: ys = y :: (rest ++ a :: a :: ys) := rfl
    have hy2 : (y :: rest) ++ a :: ys = y :: (rest ++ a :: ys) := rfl
    rw [hy1, hy2]
    rw [collapseRuns_cons_cons, collapseRuns_cons_cons]
    rw [hy1, hy2] at hih
    rw [hih]

/-! ### Claim theorems for the progress ticker -/

/-- C1: for every in-flight ASR or MT operation driven by the simulated
progress ticker, the ticker alone never raises the progress value to
100 or above (each tick caps it at 90), the value 100 appears only in
the completion suffix emitted after the awaited service call has
returned (success or error), and since the interval is cleared at that
point the emission list contains no tick after the 100. -/
theorem ticker_caps_at_90_and_100_only_on_completion (incs : List Nat) :
    (∀ inc : Nat, ∀ p : Option Nat, (progressTick inc p).getD 0 ≤ 90) ∧
    (∀ v ∈ tickValues incs, v ≤ 90) ∧
    ((mtOpValues incs).take (tickValues incs).length = tickValues incs ∧
      (mtOpValues incs).drop (tickValues incs).length = [100] ∧
      ∀ v ∈ (mtOpValues incs).take (tickValues incs).length, v < 100) ∧
    ((asrOpValuesSuccess incs).drop (tickValues incs).length = [100] ∧
      ∀ v ∈ (asrOpValuesSuccess incs).take (tickValues incs).length, v < 100) ∧
    ((asrOpValuesError incs).drop (tickValues incs).length = [100, 100] ∧
      ∀ v ∈ (asrOpValuesError incs).take (tickValues incs).length, v < 100) := by
  have hticks : ∀ v ∈ tickValues incs, v ≤ 90 :=
    mem_tickTrace_le_90 incs 0 (by omega)
  have htake : ∀ l2 : List Nat, (tickValues incs ++ l2).take (tickValues incs).length = tickValues incs :=
    fun l2 => List.take_left (tickValues incs) l2
  have htakelt : ∀ l2 : List Nat, ∀ v ∈ (tickValues incs ++ l2).take (tickValues incs).length, v < 100 := by
    intro l2 v hv
    rw [htake l2] at hv
    have := hticks v hv
    omega
  refine ⟨?_, hticks, ⟨htake [100], ?_, htakelt [100]⟩, ⟨?_, htakelt [100]⟩, ⟨?_, htakelt [100, 100]⟩⟩
  · intro inc p
    cases p with
    | none => simp [progressTick]
    | some q =>
      simp only [progressTick, Option.getD_some]
      exact tickVal_le_90 inc q
  · exact List.drop_left (tickValues incs) [100]
  · exact List.drop_left (tickValues incs) [100]
  · exact List.drop_left (tickValues incs) [100, 100]

/-- C3: for an ASR operation lasting 900 ms with the 300 ms tick
interval (so between 2 and 900/300 interval ticks fire before the
result arrives, each with an increment in the range of
`Math.floor(Math.random()*6)+2`), the observed progress sequence on
both the success path and the error path equals the ticks followed by
a single terminal 100: it contains at least 2 intermediate ticks
strictly below 100, exactly one entry equal to 100, the 100 is last,
and the whole sequence never decreases.  (On the error path the 100 is
assigned twice, by `catch` and `finally`; React state updates with an
identical value are bailed out, which `collapseRuns` models.) -/
theorem asr_progress_900ms_scenario (incs : List Nat)
    (hlen2 : 2 ≤ incs.length) (hlen3 : incs.length ≤ 900 / 300)
    (hrange : ∀ i ∈ incs, asrIncRange i) :
    collapseRuns (asrOpValuesSuccess incs) = tickValues incs ++ [100] ∧
    collapseRuns (asrOpValuesError incs) = tickValues incs ++ [100] ∧
    2 ≤ (tickValues incs).tail.length ∧
    (∀ v ∈ (tickValues incs).tail, v < 100) ∧
    (tickValues incs ++ [100]).count 100 = 1 ∧
    (tickValues incs ++ [100]).getLast? = some 100 ∧
    List.Chain' (· ≤ ·) (tickValues incs ++ [100]) := by
  have hrange' : ∀ i ∈ incs, 2 ≤ i ∧ i ≤ 7 := fun i hi => hrange i hi
  have hbudget : 0 + 7 * incs.length ≤ 89 := by omega
  obtain ⟨hstrict, hbound⟩ := tickTrace_strict incs 0 hrange' hbudget
  have hlt100 : ∀ v ∈ tickValues incs, v < 100 := by
    intro v hv
    have := hbound v hv
    omega
  have hchainlt : List.Chain' (· < ·) (tickValues incs ++ [100]) := by
    rw [List.chain'_append]
    refine ⟨hstrict, List.chain'_singleton 100, ?_⟩
    intro x hx y hy
    rcases List.mem_singleton.mp (by simpa using hy) with rfl
    exact hlt100 x (List.mem_of_mem_getLast? hx)
  have hchainne : List.Chain' (· ≠ ·) (tickValues incs ++ [100]) :=
    hchainlt.imp fun _ _ h => Nat.ne_of_lt h
  have hsucc : collapseRuns (asrOpValuesSuccess incs) = tickValues incs ++ [100] :=
    collapseRuns_eq_self hchainne
  have herr : collapseRuns (asrOpValuesError incs) = tickValues incs ++ [100] := by
    have h2 : asrOpValuesError incs = tickValues incs ++ 100 :: 100 :: [] := rfl
    rw [h2, collapseRuns_append_dup 100 [] (tickValues incs)]
    exact hsucc
  have hlen : (tickValues incs).length = incs.length + 1 := by
    unfold tickValues tickTrace
    exact List.length_scanl 0 incs
  refine ⟨hsucc, herr, ?_, ?_, ?_, ?_, hchainlt.imp fun _ _ h => Nat.le_of_lt h⟩
  · rw [List.length_tail, hlen]
    omega
  · intro v hv
    exact hlt100 v ((List.tail_sublist (tickValues incs)).mem hv)
  · rw [List.count_append]
    have h0 : (tickValues incs).count 100 = 0 :=
      List.count_eq_zero.mpr fun hmem => absurd (hlt100 100 hmem) (by omega)
    rw [h0]
    rfl
  · rw [List.getLast?_append_cons]
    rfl

theorem chain_step_tickTrace (incs : List Nat) :
    ∀ p, (∀ i ∈ incs, 1 ≤ i) → List.Chain' (fun a b => a < b ∨ b = 90) (tickTrace p incs) := by
  induction incs with
  | nil =>
    intro p _
    simp [tickTrace_nil]
  | cons i rest ih =>
    intro p hpos
    rw [tickTrace_cons]
    refine List.chain'_cons'.mpr ⟨?_, ih (tickVal i p) fun j hj => hpos j (List.mem_cons_of_mem i hj)⟩
    intro y hy
    rw [head_tickTrace] at hy
    cases hy
    have hi : 1 ≤ i := hpos i (List.mem_cons_self i rest)
    unfold tickVal
    split
    · exact Or.inr rfl
    · exact Or.inl (by omega)

theorem head_mtOpValues (incs : List Nat) : (mtOpValues incs).head? = some 0 := by
  unfold mtOpValues tickValues
  cases incs with
  | nil => rfl
  | cons i rest => rw [tickTrace_cons]; rfl

/-- C4: within one MT operation the progress sequence starts at 0, is
monotonically non-decreasing, stays in [0,100] (values are naturals,
hence nonnegative), every interval tick adds a strictly positive
increment unless it caps at 90, the rendered clamp
`Math.min(mtProgress, 100)` leaves every emitted value unchanged, and
the `null` reset is emitted exactly once, after the terminal 100. -/
theorem mt_progress_invariants (incs : List Nat)
    (hrange : ∀ i ∈ incs, mtIncRange i) :
    (mtOpValues incs).head? = some 0 ∧
    List.Chain' (· ≤ ·) (mtOpValues incs) ∧
    (∀ v ∈ mtOpValues incs, v ≤ 100) ∧
    (∀ v ∈ tickValues incs, v ≤ 90) ∧
    List.Chain' (fun a b => a < b ∨ b = 90) (tickValues incs) ∧
    (∀ v ∈ mtOpValues incs, min v 100 = v) ∧
    (mtOpEvents incs).getLast? = some none ∧
    (mtOpEvents incs).count none = 1 := by
  have hticks : ∀ v ∈ tickValues incs, v ≤ 90 :=
    mem_tickTrace_le_90 incs 0 (by omega)
  have hle100 : ∀ v ∈ mtOpValues incs, v ≤ 100 := by
    intro v hv
    rcases List.mem_append.mp hv with h | h
    · have := hticks v h
      omega
    · rcases List.mem_singleton.mp h with rfl
      omega
  refine ⟨head_mtOpValues incs, ?_, hle100, hticks, ?_, ?_, ?_, ?_⟩
  · rw [mtOpValues, List.chain'_append]
    refine ⟨chain_le_tickTrace incs 0 (by omega), List.chain'_singleton 100, ?_⟩
    intro x hx y hy
    rcases List.mem_singleton.mp (by simpa using hy) with rfl
    have := hticks x (List.mem_of_mem_getLast? hx)
    omega
  · exact chain_step_tickTrace incs 0 fun i hi => by
      have := hrange i hi
      unfold mtIncRange at this
      omega
  · intro v hv
    exact Nat.min_eq_left (hle100 v hv)
  · rw [mtOpEvents, List.getLast?_append_cons]
    rfl
  · rw [mtOpEvents, List.count_append]
    have h0 : ((mtOpValues incs).map some).count (none : Option Nat) = 0 := by
      simp [List.count_eq_zero]
    rw [h0]
    rfl

/-- Witness for C3 at the concrete increment list `[2, 3, 7]`. -/
theorem asr_progress_900ms_scenario_witness :
    collapseRuns (asrOpValuesSuccess [2, 3, 7]) = tickValues [2, 3, 7] ++ [100] ∧
    collapseRuns (asrOpValuesError [2, 3, 7]) = tickValues [2, 3, 7] ++ [100] ∧
    2 ≤ (tickValues [2, 3, 7]).tail.length ∧
    (∀ v ∈ (tickValues [2, 3, 7]).tail, v < 100) ∧
    (tickValues [2, 3, 7] ++ [100]).count 100 = 1 ∧
    (tickValues [2, 3, 7] ++ [100]).getLast? = some 100 ∧
    List.Chain' (· ≤ ·) (tickValues [2, 3, 7] ++ [100]) :=
  asr_progress_900ms_scenario [2, 3, 7] (by decide) (by decide)
    (by decide : ∀ i ∈ [2, 3, 7], 2 ≤ i ∧ i ≤ 7)

/-- Witness for C4 at the concrete increment list `[3, 10, 5]`. -/
theorem mt_progress_invariants_witness :
    (mtOpValues [3, 10, 5]).head? = some 0 ∧
    List.Chain' (· ≤ ·) (mtOpValues [3, 10, 5]) ∧
    (∀ v ∈ mtOpValues [3, 10, 5], v ≤ 100) ∧
    (∀ v ∈ tickValues [3, 10, 5], v ≤ 90) ∧
    List.Chain' (fun a b => a < b ∨ b = 90) (tickValues [3, 10, 5]) ∧
    (∀ v ∈ mtOpValues [3, 10, 5], min v 100 = v) ∧
    (mtOpEvents [3, 10, 5]).getLast? = some none ∧
    (mtOpEvents [3, 10, 5]).count none = 1 :=
  mt_progress_invariants [3, 10, 5] (by decide : ∀ i ∈ [3, 10, 5], 3 ≤ i ∧ i ≤ 10)

/-! ### MT page theorems -/

theorem jsOrNull_none : jsOrNull none = none := rfl

theorem jsOrNull_of_ne_empty {t : String} (ht : t ≠ "") : jsOrNull (some t) = some t := by
  unfold jsOrNull
  split
  · rename_i heq
    cases heq
    exact absurd rfl ht
  · rfl

/-- C2: the MT stage is independently invocable.  A page opened with
only pre-existing text (no detected language, no audio, hence no prior
ASR stage) issues a translate request for exactly that text with the
default languages and model, and a successful outcome stores the
translation. -/
theorem mt_standalone_invocable (t : String) (ht : t ≠ "") (tr : String) :
    mtRequestOf (initMT { transcription := some t, language := none, audioUrl := none })
      = some { text := t, src := "en", tgt := "hi", model := MTModel.indictrans } ∧
    (handleTranslate (initMT { transcription := some t, language := none, audioUrl := none })
        (TranslateOutcome.success tr)).result = some tr := by
  have hjs : jsOrNull (some t) = some t := jsOrNull_of_ne_empty ht
  constructor
  · simp [mtRequestOf, initMT, hjs, jsOrNull_none]
  · simp [handleTranslate, initMT, hjs, jsOrNull_none]

/-- Witness for C2 at the concrete text `"hello"` and translation `"hola"`. -/
theorem mt_standalone_invocable_witness :
    mtRequestOf (initMT { transcription := some "hello", language := none, audioUrl := none })
      = some { text := "hello", src := "en", tgt := "hi", model := MTModel.indictrans } ∧
    (handleTranslate (initMT { transcription := some "hello", language := none, audioUrl := none })
        (TranslateOutcome.success "hola")).result = some "hola" :=
  mt_standalone_invocable "hello" (by decide) "hola"

/-- C5: when the translate call throws, the MT page keeps the earlier
ASR stage's outputs and the best partial result: transcription,
detected language, source audio, language/model selections and any
previously displayed translation are unchanged, and only the error
message, loading flag and progress are updated. -/
theorem mt_failure_preserves_prior_stage (s : MTPageState) (t : String)
    (ht : s.transcription = some t) (msg : Option String) :
    (handleTranslate s (TranslateOutcome.failure msg)).transcription = s.transcription ∧
    (handleTranslate s (TranslateOutcome.failure msg)).language = s.language ∧
    (handleTranslate s (TranslateOutcome.failure msg)).audioUrl = s.audioUrl ∧
    (handleTranslate s (TranslateOutcome.failure msg)).result = s.result ∧
    (handleTranslate s (TranslateOutcome.failure msg)).srcLang = s.srcLang ∧
    (handleTranslate s (TranslateOutcome.failure msg)).tgtLang = s.tgtLang ∧
    (handleTranslate s (TranslateOutcome.failure msg)).model = s.model ∧
    (handleTranslate s (TranslateOutcome.failure msg)).error
      = some (jsMessageOr msg "Translation failed") ∧
    (handleTranslate s (TranslateOutcome.failure msg)).loading = false ∧
    (handleTranslate s (TranslateOutcome.failure msg)).mtProgress = none := by
  simp [handleTranslate, ht]

/-- Witness for C5 at a concrete page state with a previous translation
and a translate failure with message `"boom"`. -/
theorem mt_failure_preserves_prior_stage_witness :
    (handleTranslate
        { transcription := some "hola mundo", language := some "es",
          audioUrl := some "blob:a", srcLang := "es", tgtLang := "en",
          model := MTModel.indictrans, loading := true, result := some "prev",
          error := none, mtProgress := some 42 }
        (TranslateOutcome.failure (some "boom"))).transcription = some "hola mundo" ∧
    (handleTranslate
        { transcription := some "hola mundo", language := some "es",
          audioUrl := some "blob:a", srcLang := "es", tgtLang := "en",
          model := MTModel.indictrans, loading := true, result := some "prev",
          error := none, mtProgress := some 42 }
        (TranslateOutcome.failure (some "boom"))).language = some "es" ∧
    (handleTranslate
        { transcription := some "hola mundo", language := some "es",
          audioUrl := some "blob:a", srcLang := "es", tgtLang := "en",
          model := MTModel.indictrans, loading := true, result := some "prev",
          error := none, mtProgress := some 42 }
        (TranslateOutcome.failure (some "boom"))).audioUrl = some "blob:a" ∧
    (handleTranslate
        { transcription := some "hola mundo", language := some "es",
          audioUrl := some "blob:a", srcLang := "es", tgtLang := "en",
          model := MTModel.indictrans, loading := true, result := some "prev",
          error := none, mtProgress := some 42 }
        (TranslateOutcome.failure (some "boom"))).result = some "prev" ∧
    (handleTranslate
        { transcription := some "hola mundo", language := some "es",
          audioUrl := some "blob:a", srcLang := "es", tgtLang := "en",
          model := MTModel.indictrans, loading := true, result := some "prev",
          error := none, mtProgress := some 42 }
        (TranslateOutcome.failure (some "boom"))).error = some "boom" := by
  obtain ⟨h1, h2, h3, h4, _, _, _, h8, _, _⟩ :=
    mt_failure_preserves_prior_stage
      { transcription := some "hola mundo", language := some "es",
        audioUrl := some "blob:a", srcLang := "es", tgtLang := "en",
        model := MTModel.indictrans, loading := true, result := some "prev",
        error := none, mtProgress := some 42 }
      "hola mundo" rfl (some "boom")
  exact ⟨h1, h2, h3, h4, h8⟩

/-! ### ASR toast theorem -/

/-- C6: on every successful ASR response the handler records the
transcription and detected language and raises the notification whose
description is `Detected: X | Model: Y` with `X` and `Y` taken verbatim
from the response's `language_name` and `model_used` fields. -/
theorem asr_success_toast_format (r : ASRResponse) (h : r.success = true) :
    handleASRResponse r = Except.ok (r.transcription, r.language, asrSuccessToast r) ∧
    (asrSuccessToast r).title = "Transcription completed" ∧
    (asrSuccessToast r).description
      = "Detected: " ++ r.language_name ++ " | Model: " ++ r.model_used := by
  refine ⟨?_, rfl, rfl⟩
  simp [handleASRResponse, h]

/-- Witness for C6 at a concrete successful ASR response. -/
theorem asr_success_toast_format_witness :
    handleASRResponse
        { success := true, transcription := "namaste", language := "hi",
          language_name := "Hindi", model_used := "whisper-base", error := none }
      = Except.ok ("namaste", "hi",
          asrSuccessToast
            { success := true, transcription := "namaste", language := "hi",
              language_name := "Hindi", model_used := "whisper-base", error := none }) ∧
    (asrSuccessToast
        { success := true, transcription := "namaste", language := "hi",
          language_name := "Hindi", model_used := "whisper-base", error := none }).title
      = "Transcription completed" ∧
    (asrSuccessToast
        { success := true, transcription := "namaste", language := "hi",
          language_name := "Hindi", model_used := "whisper-base", error := none }).description
      = "Detected: " ++ "Hindi" ++ " | Model: " ++ "whisper-base" :=
  asr_success_toast_format
    { success := true, transcription := "namaste", language := "hi",
      language_name := "Hindi", model_used := "whisper-base", error := none } rfl

/-! ### Stage metadata threading theorem -/

/-- C7: metadata is threaded from one stage into the next stage's
request.  The Continue button sends the ASR transcription, detected
language and recording to the MT route; the MT page initializes its
source language to the carried detected language, defaulting to `"en"`
when absent, and receives the transcription and audio reference; the
Continue-to-TTS button passes the MT translation as the TTS input text
together with the MT target language. -/
theorem stage_metadata_threading (lt lr : Option String) (l : String) (hl : l ≠ "")
    (s : MTPageState) (r : String) (hr : s.result = some r) :
    (initMT (continueToMT lt (some l) lr)).srcLang = l ∧
    (initMT (continueToMT lt none lr)).srcLang = "en" ∧
    (initMT (continueToMT lt (some l) lr)).transcription = jsOrNull lt ∧
    (initMT (continueToMT lt (some l) lr)).audioUrl = jsOrNull lr ∧
    continueToTTS s
      = some { text := r, lang_code := s.tgtLang, src_text := s.transcription,
               src_lang := s.srcLang } := by
  have hjs : jsOrNull (some l) = some l := jsOrNull_of_ne_empty hl
  refine ⟨?_, ?_, rfl, rfl, ?_⟩
  · simp [initMT, continueToMT, hjs]
  · simp [initMT, continueToMT, jsOrNull_none]
  · simp [continueToTTS, hr]

/-- Witness for C7 at concrete states: detected language `"bn"`, a page
with translation result `"hello"` and target `"en"`. -/
theorem stage_metadata_threading_witness :
    (initMT (continueToMT (some "kemon acho") (some "bn") (some "blob:r"))).srcLang = "bn" ∧
    (initMT (continueToMT (some "kemon acho") none (some "blob:r"))).srcLang = "en" ∧
    (initMT (continueToMT (some "kemon acho") (some "bn") (some "blob:r"))).transcription
      = jsOrNull (some "kemon acho") ∧
    (initMT (continueToMT (some "kemon acho") (some "bn") (some "blob:r"))).audioUrl
      = jsOrNull (some "blob:r") ∧
    continueToTTS
        { transcription := some "kemon acho", language := some "bn",
          audioUrl := some "blob:r", srcLang := "bn", tgtLang := "en",
          model := MTModel.indictrans, loading := false, result := some "hello",
          error := none, mtProgress := none }
      = some { text := "hello", lang_code := "en", src_text := some "kemon acho",
               src_lang := "bn" } :=
  stage_metadata_threading (some "kemon acho") (some "blob:r") "bn" (by decide)
    { transcription := some "kemon acho", language := some "bn",
      audioUrl := some "blob:r", srcLang := "bn", tgtLang := "en",
      model := MTModel.indictrans, loading := false, result := some "hello",
      error := none, mtProgress := none } "hello" rfl

/-! ### chatService theorems -/

theorem bearerHeaders_of_ne_empty {t : String} (ht : t ≠ "") :
    bearerHeaders (some t) = [("Authorization", "Bearer " ++ t)] := by
  unfold bearerHeaders
  split
  · rename_i heq
    cases heq
  · rename_i heq
    injection heq with heq2
    exact absurd heq2 ht
  · rename_i heq
    injection heq with heq2
    subst heq2
    rfl

/-- C8 counterexample: with an empty-string `access_token` stored in
localStorage the token exists (`getItem` is not `null`) but the code's
truthiness check attaches no Authorization header, so "attached exactly
when an access_token exists" fails as stated. -/
theorem bearer_header_missing_for_empty_token :
    ¬((∃ t : String, ("Authorization", "Bearer " ++ t) ∈ bearerHeaders (some ""))
        ↔ (some "" : Option String).isSome = true) := by
  intro h
  obtain ⟨t, ht⟩ := h.mpr rfl
  simp [bearerHeaders] at ht

/-- C8 (amended): `getChats` and `saveChat` resolve with the parsed
JSON body exactly when the response is ok, reject with an error message
containing the HTTP status code exactly when it is not, and the
Authorization bearer header is attached exactly when a non-empty
`access_token` exists in localStorage. -/
theorem chatService_contract (token : Option String) (res : HttpResponse) :
    (getChats res = Except.ok res.jsonBody ↔ res.ok = true) ∧
    (saveChat res = Except.ok res.jsonBody ↔ res.ok = true) ∧
    ((∃ pre suf, getChats res = Except.error (pre ++ toString res.status ++ suf))
        ↔ res.ok = false) ∧
    ((∃ pre suf, saveChat res = Except.error (pre ++ toString res.status ++ suf))
        ↔ res.ok = false) ∧
    ((∃ t, ("Authorization", "Bearer " ++ t) ∈ bearerHeaders token)
        ↔ ∃ t, token = some t ∧ t ≠ "") ∧
    ((∃ t, ("Authorization", "Bearer " ++ t) ∈ saveChatHeaders token)
        ↔ ∃ t, token = some t ∧ t ≠ "") := by
  have hbear : (∃ t, ("Authorization", "Bearer " ++ t) ∈ bearerHeaders token)
      ↔ ∃ t, token = some t ∧ t ≠ "" := by
    constructor
    · rintro ⟨t, ht⟩
      cases token with
      | none => simp [bearerHeaders] at ht
      | some tk =>
        by_cases htk : tk = ""
        · subst htk
          simp [bearerHeaders] at ht
        · exact ⟨tk, rfl, htk⟩
    · rintro ⟨t, htok, hne⟩
      subst htok
      exact ⟨t, by rw [bearerHeaders_of_ne_empty hne]; exact List.mem_singleton.mpr rfl⟩
  cases hok : res.ok with
  | true =>
    refine ⟨by simp [getChats, hok], by simp [saveChat, hok], ?_, ?_, hbear, ?_⟩
    · simp [getChats, hok]
    · simp [saveChat, hok]
    · constructor
      · rintro ⟨t, ht⟩
        rcases List.mem_cons.mp ht with h | h
        · have hfst : ("Authorization" : String) = "Content-Type" := congrArg Prod.fst h
          exact absurd hfst (by decide)
        · exact hbear.mp ⟨t, h⟩
      · intro h
        obtain ⟨t, ht⟩ := hbear.mpr h
        exact ⟨t, List.mem_cons_of_mem _ ht⟩
  | false =>
    refine ⟨by simp [getChats, hok], by simp [saveChat, hok], ?_, ?_, hbear, ?_⟩
    · constructor
      · intro _
        rfl
      · intro _
        exact ⟨"Failed to fetch chats: ", "", by simp [getChats, hok]⟩
    · constructor
      · intro _
        rfl
      · intro _
        refine ⟨"Failed to save chat: ", " " ++ res.textBody, ?_⟩
        simp [saveChat, hok, String.append_assoc]
    · constructor
      · rintro ⟨t, ht⟩
        rcases List.mem_cons.mp ht with h | h
        · have hfst : ("Authorization" : String) = "Content-Type" := congrArg Prod.fst h
          exact absurd hfst (by decide)
        · exact hbear.mp ⟨t, h⟩
      · intro h
        obtain ⟨t, ht⟩ := hbear.mpr h
        exact ⟨t, List.mem_cons_of_mem _ ht⟩

/-! ### Chat send guard theorems -/

theorem handleSendStart_of_blocked {s : ChatSendState} (hb : sendBlocked s = true) :
    handleSendStart s = s := by
  simp [handleSendStart, hb]

theorem sendBlocked_of_inflight {s : ChatSendState}
    (h : s.isLoading = true ∨ s.isProcessingASR = true) : sendBlocked s = true := by
  rcases h with h | h <;> simp [sendBlocked, h]

/-- C9: `handleSend` returns immediately with no state change when
there is no trimmed text and no audio recording, uploaded file or
media link, or when a send or ASR operation is already in flight; and
a call that does change the state can only start from an idle state,
so at most one send/ASR operation is in progress at a time. -/
theorem handleSend_guard (s : ChatSendState)
    (h : (s.input.trim = "" ∧ s.audioBlob = false ∧ s.audioFile = false
            ∧ jsTruthyStr s.mediaLink = false)
         ∨ s.isLoading = true ∨ s.isProcessingASR = true) :
    handleSendStart s = s ∧
    (∀ s' : ChatSendState, handleSendStart s' ≠ s' →
        s'.isLoading = false ∧ s'.isProcessingASR = false) := by
  constructor
  · apply handleSendStart_of_blocked
    rcases h with ⟨h1, h2, h3, h4⟩ | h | h
    · simp [sendBlocked, h1, h2, h3, h4]
    · exact sendBlocked_of_inflight (Or.inl h)
    · exact sendBlocked_of_inflight (Or.inr h)
  · intro s' hne
    cases hl : s'.isLoading with
    | true => exact absurd (handleSendStart_of_blocked (sendBlocked_of_inflight (Or.inl hl))) hne
    | false =>
      cases hp : s'.isProcessingASR with
      | true =>
        exact absurd (handleSendStart_of_blocked (sendBlocked_of_inflight (Or.inr hp))) hne
      | false => exact ⟨rfl, rfl⟩

/-- Witness for C9 at a concrete state with an ASR operation already in
flight. -/
theorem handleSend_guard_witness :
    handleSendStart
        { input := "hi", audioBlob := true, audioFile := false, mediaLink := none,
          isLoading := false, isProcessingASR := true, backendAvailable := true,
          asrProgress := some 30 }
      = { input := "hi", audioBlob := true, audioFile := false, mediaLink := none,
          isLoading := false, isProcessingASR := true, backendAvailable := true,
          asrProgress := some 30 } ∧
    (∀ s' : ChatSendState, handleSendStart s' ≠ s' →
        s'.isLoading = false ∧ s'.isProcessingASR = false) :=
  handleSend_guard
    { input := "hi", audioBlob := true, audioFile := false, mediaLink := none,
      isLoading := false, isProcessingASR := true, backendAvailable := true,
      asrProgress := some 30 }
    (Or.inr (Or.inr rfl))

/-! ### Hero lightbox theorems -/

theorem heroInit_in_bounds : heroIndexInBounds heroInit := by
  intro imgs him
  simp [heroInit] at him

theorem heroStep_preserves_bounds (s : HeroState) (e : HeroEvent)
    (h : heroIndexInBounds s) : heroIndexInBounds (heroStep s e) := by
  cases e with
  | openASREval =>
    intro imgs him
    have heq : ["/asrcombined.png"] = imgs := Option.some.inj him
    subst heq
    show (0 : Nat) < 1
    omega
  | openMTEval =>
    intro imgs him
    have heq : ["/mt_combined.png"] = imgs := Option.some.inj him
    subst heq
    show (0 : Nat) < 1
    omega
  | openTTSEval =>
    intro imgs him
    have heq : ["/tts_mos.png", "/tts_rtf.png"] = imgs := Option.some.inj him
    subst heq
    show (0 : Nat) < 2
    omega
  | prevImage =>
    intro imgs him
    cases hev : s.evalImages with
    | none =>
      have key : heroStep s HeroEvent.prevImage = s := by
        simp [heroStep, hev]
      rw [key] at him ⊢
      exact h imgs him
    | some imgs0 =>
      have key : heroStep s HeroEvent.prevImage =
          if imgs0.length > 1 then { s with evalIndex := s.evalIndex - 1 } else s := by
        simp [heroStep, hev]
      by_cases hlen : imgs0.length > 1
      · rw [key, if_pos hlen] at him ⊢
        have him2 : s.evalImages = some imgs := him
        rw [hev] at him2
        have heq : imgs0 = imgs := Option.some.inj him2
        subst heq
        have hb := h imgs0 hev
        show s.evalIndex - 1 < imgs0.length
        omega
      · rw [key, if_neg hlen] at him ⊢
        exact h imgs him
  | nextImage =>
    intro imgs him
    cases hev : s.evalImages with
    | none =>
      have key : heroStep s HeroEvent.nextImage = s := by
        simp [heroStep, hev]
      rw [key] at him ⊢
      exact h imgs him
    | some imgs0 =>
      have key : heroStep s HeroEvent.nextImage =
          if imgs0.length > 1 then
            { s with evalIndex := min (imgs0.length - 1) (s.evalIndex + 1) }
          else s := by
        simp [heroStep, hev]
      by_cases hlen : imgs0.length > 1
      · rw [key, if_pos hlen] at him ⊢
        have him2 : s.evalImages = some imgs := him
        rw [hev] at him2
        have heq : imgs0 = imgs := Option.some.inj him2
        subst heq
        show min (imgs0.length - 1) (s.evalIndex + 1) < imgs0.length
        omega
      · rw [key, if_neg hlen] at him ⊢
        exact h imgs him
  | closeLightbox =>
    intro imgs him
    exact Option.noConfusion him
  | toggleZoom =>
    intro imgs him
    exact h imgs him

theorem hero_fold_in_bounds (es : List HeroEvent) :
    ∀ s : HeroState, heroIndexInBounds s → heroIndexInBounds (es.foldl heroStep s) := by
  induction es with
  | nil => intro s h; exact h
  | cons e rest ih =>
    intro s h
    exact ih (heroStep s e) (heroStep_preserves_bounds s e h)

/-- C10: after any sequence of lightbox events from the initial Hero
state, whenever the lightbox is open the image index is a valid
position in the displayed list, so `evalImages[evalIndex]` is never an
out-of-bounds access. -/
theorem hero_lightbox_index_safe (es : List HeroEvent) (imgs : List String)
    (h : (es.foldl heroStep heroInit).evalImages = some imgs) :
    (es.foldl heroStep heroInit).evalIndex < imgs.length ∧
    imgs.get? (es.foldl heroStep heroInit).evalIndex ≠ none := by
  have hlt := hero_fold_in_bounds es heroInit heroInit_in_bounds imgs h
  refine ⟨hlt, ?_⟩
  rw [Ne, List.get?_eq_none]
  omega

/-- Witness for C10: open the TTS plots (two images) and click next. -/
theorem hero_lightbox_index_safe_witness :
    ([HeroEvent.openTTSEval, HeroEvent.nextImage].foldl heroStep heroInit).evalIndex
      < (["/tts_mos.png", "/tts_rtf.png"] : List String).length ∧
    (["/tts_mos.png", "/tts_rtf.png"] : List String).get?
        ([HeroEvent.openTTSEval, HeroEvent.nextImage].foldl heroStep heroInit).evalIndex
      ≠ none :=
  hero_lightbox_index_safe [HeroEvent.openTTSEval, HeroEvent.nextImage]
    ["/tts_mos.png", "/tts_rtf.png"] rfl
